import Mathlib

/-!
Verification of the born-toggle trigger/target show-hide controller
(src/born-toggle.js), shallowly embedded in Lean.

Modelling conventions:
* DOM elements are natural-number ids arranged in a rose tree (`DomTree`),
  whose preorder flattening is document order.
* CSS selectors are modelled extensionally, as the list of element ids they
  match; an absent (`undefined`) selector matches nothing (in the host,
  `el.matches(undefined)` stringifies to the type selector "undefined",
  which matches no HTML element).
* The class list of the document is the set of (element, class) pairs in
  `St.classes`; `classList.add` deduplicates, `classList.remove` deletes.
* Registered listeners and timers are `Handle` values in `St.listeners`.
  `addEventListener` deduplicates on (target, type, callback identity): the
  inner-click handler is the shared static `closeElCallback`, so it is
  deduplicated, while the outside-interaction and hover-out callbacks are
  fresh closures on every activation and therefore accumulate.
* Lifecycle hooks are modelled by their returned boolean (a fixed field of
  the trigger record); every hook invocation is recorded in `St.trace`.
* `window.setTimeout` delays and `document.body.offsetWidth` are naturals.
-/

/-- A DOM subtree: an element id together with its child subtrees.
Preorder traversal of the tree is document order. -/
inductive DomTree where
  | node (id : Nat) (kids : List DomTree)
deriving Repr

/-- The element id at the root of a subtree. -/
def DomTree.rootId : DomTree → Nat
  | .node i _ => i

mutual

/-- Preorder (document-order) list of the element ids of a subtree. -/
def DomTree.flatten : DomTree → List Nat
  | .node i ks => i :: flattenList ks

/-- Preorder flattening of a forest. -/
def flattenList : List DomTree → List Nat
  | [] => []
  | k :: ks => k.flatten ++ flattenList ks

end

mutual

/-- The subtree rooted at a given element id, if the id occurs. -/
def DomTree.subtreeOf : DomTree → Nat → Option DomTree
  | .node i ks, x => if i = x then some (.node i ks) else subtreeOfList ks x

/-- First subtree of a forest rooted at a given element id. -/
def subtreeOfList : List DomTree → Nat → Option DomTree
  | [], _ => none
  | k :: ks, x =>
    match k.subtreeOf x with
    | some t => some t
    | none => subtreeOfList ks x

end

mutual

/-- The parent element of an id inside a subtree (`Node.parentNode`). -/
def DomTree.parentIn : DomTree → Nat → Option Nat
  | .node i ks, x =>
    if (ks.map DomTree.rootId).contains x then some i else parentInList ks x

/-- Parent lookup over a forest. -/
def parentInList : List DomTree → Nat → Option Nat
  | [], _ => none
  | k :: ks, x =>
    match k.parentIn x with
    | some p => some p
    | none => parentInList ks x

end

mutual

/-- The path of element ids from the root of a subtree down to `x`. -/
def DomTree.pathTo : DomTree → Nat → Option (List Nat)
  | .node i ks, x =>
    if i = x then some [i]
    else
      match pathToList ks x with
      | some p => some (i :: p)
      | none => none

/-- Path search over a forest. -/
def pathToList : List DomTree → Nat → Option (List Nat)
  | [], _ => none
  | k :: ks, x =>
    match k.pathTo x with
    | some p => some p
    | none => pathToList ks x

end

/-- `Node.contains`: `x` is `a` itself or a descendant of `a`. -/
def domContains (dom : DomTree) (a x : Nat) : Bool :=
  match dom.subtreeOf a with
  | some t => t.flatten.contains x
  | none => false

/-- The descendants of an element in document order (excluding itself),
the search space of `parentEl.querySelector`. -/
def descendantsOf (dom : DomTree) (a : Nat) : List Nat :=
  match dom.subtreeOf a with
  | some (.node _ ks) => flattenList ks
  | none => []

/-- A selector, modelled extensionally: `some l` matches exactly the ids in
`l`; `none` is an absent (`undefined`) selector, matching nothing. -/
abbrev Sel := Option (List Nat)

/-- `el.matches(selector)` under the extensional selector model. -/
def selMatches (sel : Sel) (e : Nat) : Bool :=
  match sel with
  | some l => l.contains e
  | none => false

/-- `el.closest(selector)`: the nearest ancestor-or-self of `x` matching the
selector, found by walking the root-to-`x` path from `x` upward. -/
def closestBy (dom : DomTree) (x : Nat) (sel : Sel) : Option Nat :=
  match dom.pathTo x with
  | some p => p.reverse.find? (fun e => selMatches sel e)
  | none => none

/-- The value of a trigger's `auto` option
(absent, a number, a string, or boolean true). -/
inductive AutoVal where
  | absent
  | num (n : Nat)
  | str (s : String)
  | boolTrue
deriving DecidableEq, Repr

/-- One entry of the process-level breakpoints table; a `min`/`max` of 0
behaves as an absent bound (the source tests the bound for truthiness). -/
structure Breakpoint where
  min : Nat := 0
  max : Nat := 0
deriving DecidableEq, Repr

/-- The per-trigger `trigger.toggle` record built at setup: resolved options,
resolved parent and target elements, and the lifecycle hooks, each modelled
by the boolean it returns. -/
structure ToggleRec where
  parentEl : Nat
  targetEl : Nat
  activeClass : String := "toggle--active"
  closeSelector : List Nat := []
  unsetSelf : Bool := true
  persist : Bool := false
  unsetOnHoverOut : Bool := false
  /-- `timeout` option in milliseconds; 0 is falsy, i.e. absent. -/
  timeout : Nat := 0
  siblingSelector : Sel := none
  skipSelector : Sel := none
  beforeSet : Bool := true
  afterSet : Bool := true
  beforeUnset : Bool := true
  afterUnset : Bool := true
  beforeUnsetAll : Bool := true
  auto : AutoVal := .absent
deriving DecidableEq, Repr

/-- The static environment consumed by the state-machine operations: the
document tree, the `trigger.toggle` records attached to elements, the
`targetEl.toggleTrigger` back-references, and the per-element
`data-toggle-close` discriminator selector. -/
structure Env where
  dom : DomTree
  recs : List (Nat × ToggleRec)
  backRefs : List (Nat × Nat) := []
  closeAttr : List (Nat × List Nat) := []

/-- `trigger.toggle` lookup: the record attached to an element, if any. -/
def bindingOf (env : Env) (t : Nat) : Option ToggleRec :=
  match env.recs.find? (fun p => p.1 == t) with
  | some p => some p.2
  | none => none

/-- `targetEl.toggleTrigger` lookup. -/
def backRefOf (env : Env) (g : Nat) : Option Nat :=
  match env.backRefs.find? (fun p => p.1 == g) with
  | some p => some p.2
  | none => none

/-- `data-toggle-close` attribute lookup: the discriminator selector carried
by a dismiss control, if any. -/
def closeAttrOf (env : Env) (e : Nat) : Option (List Nat) :=
  match env.closeAttr.find? (fun p => p.1 == e) with
  | some p => some p.2
  | none => none

/-- Events recorded in the trace: one entry per lifecycle-hook invocation
(the argument is the trigger element the hook was invoked for). -/
inductive Ev where
  | beforeSetCall (t : Nat)
  | afterSetCall (t : Nat)
  | beforeUnsetCall (t : Nat)
  | afterUnsetCall (t : Nat)
  | beforeUnsetAllCall (t : Nat)
deriving DecidableEq, Repr

/-- A registered listener or pending timer.
* `bodyBlur t ty`: the outside-interaction closure registered on
  `document.body` for trigger `t` with event type `ty` (capture phase).
* `hoverOut t`: the `mouseleave` closure on trigger `t`'s parent.
* `unsetTimer t ms`: a pending `setTimeout` that will unset `t`.
* `innerClick g`: the shared static `closeElCallback` on target `g`.
* `setTimer t ms`: a pending `setTimeout` from auto-activation that will
  set `t`. -/
inductive Handle where
  | bodyBlur (t : Nat) (evtType : String)
  | hoverOut (t : Nat)
  | unsetTimer (t : Nat) (ms : Nat)
  | innerClick (g : Nat)
  | setTimer (t : Nat) (ms : Nat)
deriving DecidableEq, Repr

/-- The mutable document state: which (element, class) pairs are present,
which listeners/timers are registered, and the hook-invocation trace. -/
structure St where
  classes : List (Nat × String) := []
  listeners : List Handle := []
  trace : List Ev := []
deriving DecidableEq, Repr

/-- `el.classList.contains(c)`. -/
def hasClass (s : St) (e : Nat) (c : String) : Bool :=
  s.classes.contains (e, c)

/-- `el.classList.add(c)` (a class set: no duplicates). -/
def addClass (s : St) (e : Nat) (c : String) : St :=
  if s.classes.contains (e, c) then s else { s with classes := (e, c) :: s.classes }

/-- `el.classList.remove(c)`. -/
def removeClass (s : St) (e : Nat) (c : String) : St :=
  { s with classes := s.classes.filter (fun p => p != (e, c)) }

/-- Record a lifecycle-hook invocation. -/
def logEv (s : St) (ev : Ev) : St :=
  { s with trace := s.trace ++ [ev] }

/-- `addEventListener` with a freshly created closure (never deduplicated). -/
def addRawListener (s : St) (h : Handle) : St :=
  { s with listeners := s.listeners ++ [h] }

/-- `addEventListener` with the shared static callback, which the host
deduplicates on (target, type, callback). -/
def addDedupListener (s : St) (h : Handle) : St :=
  if s.listeners.contains h then s else { s with listeners := s.listeners ++ [h] }

/-- `removeEventListener` / one-shot consumption: remove one matching
registration. -/
def eraseListener (s : St) (h : Handle) : St :=
  { s with listeners := s.listeners.erase h }

/-- All elements of the document carrying a class, in document order:
the model of `document.querySelectorAll('.' + c)` (a static snapshot). -/
def qsaClass (env : Env) (s : St) (c : String) : List Nat :=
  env.dom.flatten.filter (fun e => hasClass s e c)

namespace Toggle

/-- `Toggle.unset(trigger)` with the trigger's record already looked up
(the source reads it from `trigger.toggle`): if the trigger carries its
active class and `beforeUnset` allows it, strip the class from trigger,
parent and target, remove the inner-click dismissal listener from the
target, and invoke `afterUnset`; otherwise do nothing (`beforeUnset` is
still invoked when the trigger was active, by short-circuit order). -/
def unsetRec (s : St) (t : Nat) (r : ToggleRec) : St :=
  if hasClass s t r.activeClass then
    let s1 := logEv s (.beforeUnsetCall t)
    if r.beforeUnset then
      let s2 := removeClass s1 t r.activeClass
      let s3 := removeClass s2 r.parentEl r.activeClass
      let s4 := removeClass s3 r.targetEl r.activeClass
      let s5 := eraseListener s4 (.innerClick r.targetEl)
      logEv s5 (.afterUnsetCall t)
    else s1
  else s

/-- `Toggle.unset(trigger)`: looks up `trigger.toggle` (calling it on an
element without a binding is a host error, modelled as a no-op; no claim
exercises that path). -/
def unset (env : Env) (s : St) (t : Nat) : St :=
  match bindingOf env t with
  | some r => unsetRec s t r
  | none => s

/-- One step of the `unsetAll` sweep on a scanned element: skip it unless it
has a `toggle` binding, does not match the reference trigger's
`skipSelector`, and either is not persistent or matches the reference
trigger's `siblingSelector`. -/
def sweepStep (env : Env) (ref : ToggleRec) (acc : St) (e : Nat) : St :=
  match bindingOf env e with
  | some re =>
    if !selMatches ref.skipSelector e
        && (!re.persist || selMatches ref.siblingSelector e) then
      unsetRec acc e re
    else acc
  | none => acc

/-- `Toggle.unsetAll(refTrigger)` with the reference record looked up:
snapshot all elements carrying the reference trigger's active class
(`document.querySelectorAll` returns a static list) and run the sweep over
the snapshot. -/
def unsetAllRec (env : Env) (s : St) (ref : ToggleRec) : St :=
  let activeTriggers := qsaClass env s ref.activeClass
  activeTriggers.foldl (sweepStep env ref) s

/-- `Toggle.unsetAll(refTrigger)`. -/
def unsetAll (env : Env) (s : St) (t : Nat) : St :=
  match bindingOf env t with
  | some r => unsetAllRec env s r
  | none => s

/-- The event type the outside-interaction listener is registered with:
the activating event family for touch events, `click` otherwise. -/
def bodyEvtType (triggerEvt : String) : String :=
  if triggerEvt.startsWith "touch" then triggerEvt else "click"

/-- `Toggle.set(trigger, evt, evtType)` with the record looked up: invoke
`beforeSet` and abort if it refuses; otherwise run the exclusivity sweep
when `beforeUnsetAll` allows it, apply the active class to trigger, parent
and target, register the outside-interaction listener (unless `persist`),
the hover-out listener (if `unsetOnHoverOut`), the auto-unset timer (if
`timeout`), the inner-click dismissal listener, and invoke `afterSet`. -/
def setRec (env : Env) (s : St) (t : Nat) (r : ToggleRec) (evtType : String) : St :=
  let triggerEvt := evtType
  let s1 := logEv s (.beforeSetCall t)
  if r.beforeSet then
    let s2 := logEv s1 (.beforeUnsetAllCall t)
    let s3 := if r.beforeUnsetAll then unsetAllRec env s2 r else s2
    let s4 := addClass s3 t r.activeClass
    let s5 := addClass s4 r.parentEl r.activeClass
    let s6 := addClass s5 r.targetEl r.activeClass
    let s7 := if !r.persist then addRawListener s6 (.bodyBlur t (bodyEvtType triggerEvt)) else s6
    let s8 := if r.unsetOnHoverOut then addRawListener s7 (.hoverOut t) else s7
    let s9 := if r.timeout != 0 then addRawListener s8 (.unsetTimer t r.timeout) else s8
    let s10 := addDedupListener s9 (.innerClick r.targetEl)
    logEv s10 (.afterSetCall t)
  else s1

/-- `Toggle.set(trigger, evt, evtType)`; an absent `evtType` is the empty
string, as in the source. -/
def set (env : Env) (s : St) (t : Nat) (evtType : String) : St :=
  match bindingOf env t with
  | some r => setRec env s t r evtType
  | none => s

/-- `Toggle.toggle(trigger, evt)`: if the trigger carries its active class,
unset it unless `unsetSelf` is disabled or the interaction is a
`mouseenter`; otherwise set it. `evtType` is `evt.type`, or the empty
string when no event was passed. -/
def toggle (env : Env) (s : St) (t : Nat) (evtType : String) : St :=
  match bindingOf env t with
  | some r =>
    if hasClass s t r.activeClass then
      if r.unsetSelf && evtType != "mouseenter" then unsetRec s t r else s
    else setRec env s t r evtType
  | none => s

/-- The outside-interaction closure firing for an interaction whose target
is element `x`: if the registration is present and `x` is outside both the
trigger's target and parent subtrees and is not the trigger itself, the
closure removes itself and unsets the trigger; otherwise it leaves the
registration armed. -/
def blurFire (env : Env) (s : St) (t : Nat) (ty : String) (x : Nat) : St :=
  if s.listeners.contains (.bodyBlur t ty) then
    match bindingOf env t with
    | some r =>
      if !domContains env.dom r.targetEl x && !domContains env.dom r.parentEl x
          && x != t then
        unset env (eraseListener s (.bodyBlur t ty)) t
      else s
    | none => s
  else s

/-- The hover-out closure firing on `mouseleave` of the trigger's parent:
it removes itself and unsets the trigger. -/
def hoverFire (env : Env) (s : St) (t : Nat) : St :=
  if s.listeners.contains (.hoverOut t) then
    unset env (eraseListener s (.hoverOut t)) t
  else s

/-- A pending `timeout` timer elapsing: the one-shot timer is consumed and
the trigger unset. -/
def timerFire (env : Env) (s : St) (t : Nat) (ms : Nat) : St :=
  if s.listeners.contains (.unsetTimer t ms) then
    unset env (eraseListener s (.unsetTimer t ms)) t
  else s

/-- A pending auto-activation timer elapsing: the one-shot timer is
consumed and the trigger set. -/
def setTimerFire (env : Env) (s : St) (t : Nat) (ms : Nat) : St :=
  if s.listeners.contains (.setTimer t ms) then
    set env (eraseListener s (.setTimer t ms)) t ""
  else s

/-- `Toggle.closeElCallback` for a click on element `x` inside target `g`
(the listener on `g` observes clicks in its subtree): look up the nearest
dismiss control via `closest(closeSelector)` of the back-referenced
trigger; when one is found, unset that trigger unless the control carries a
`data-toggle-close` discriminator that the trigger does not match. -/
def innerClickFire (env : Env) (s : St) (g : Nat) (x : Nat) : St :=
  if s.listeners.contains (.innerClick g) && domContains env.dom g x then
    match backRefOf env g with
    | some t =>
      match bindingOf env t with
      | some r =>
        match closestBy env.dom x (some r.closeSelector) with
        | some ce =>
          match closeAttrOf env ce with
          | some disc => if disc.contains t then unset env s t else s
          | none => unset env s t
        | none => s
      | none => s
    | none => s
  else s

end Toggle

/-- The per-trigger options as produced by `_getOptions` (inline
configuration merged with process defaults and back-filled); the JSON
parse/merge itself is configuration plumbing outside the claims, so setup
consumes its result. `target` and `parent` are selector extensions, `event`
is the space-separated interaction event list (empty string = absent). -/
structure TrigOpts where
  target : List Nat := []
  parent : Sel := none
  event : String := ""
  activeClass : String := "toggle--active"
  closeSelector : List Nat := []
  unsetSelf : Bool := true
  persist : Bool := false
  unsetOnHoverOut : Bool := false
  timeout : Nat := 0
  siblingSelector : Sel := none
  skipSelector : Sel := none
  beforeSet : Bool := true
  afterSet : Bool := true
  beforeUnset : Bool := true
  afterUnset : Bool := true
  beforeUnsetAll : Bool := true
  auto : AutoVal := .absent
deriving DecidableEq, Repr

/-- The `trigger.toggle` record assembled by `_setupTrigger` from the
resolved options and the resolved parent/target elements. -/
def mkRec (o : TrigOpts) (parentEl targetEl : Nat) : ToggleRec :=
  { parentEl := parentEl
    targetEl := targetEl
    activeClass := o.activeClass
    closeSelector := o.closeSelector
    unsetSelf := o.unsetSelf
    persist := o.persist
    unsetOnHoverOut := o.unsetOnHoverOut
    timeout := o.timeout
    siblingSelector := o.siblingSelector
    skipSelector := o.skipSelector
    beforeSet := o.beforeSet
    afterSet := o.afterSet
    beforeUnset := o.beforeUnset
    afterUnset := o.afterUnset
    beforeUnsetAll := o.beforeUnsetAll
    auto := o.auto }

/-- `_getParent`: `trigger.closest(parent)`, else
`document.querySelector(parent)`, else `trigger.parentNode` (the model
gives the document root as the parent of the root, which has none). -/
def getParent (dom : DomTree) (t : Nat) (parentSel : Sel) : Nat :=
  match closestBy dom t parentSel with
  | some p => p
  | none =>
    match dom.flatten.find? (fun e => selMatches parentSel e) with
    | some p => p
    | none => (dom.parentIn t).getD dom.rootId

/-- `_getTarget`: query the whole document for the target selector; with
more than one match, take the first match among the descendants of
`parentEl`; otherwise take the single match, if any. -/
def getTarget (dom : DomTree) (parentEl : Nat) (targetSel : List Nat) : Option Nat :=
  let targetEl := dom.flatten.filter (fun e => targetSel.contains e)
  if targetEl.length > 1 then
    (descendantsOf dom parentEl).find? (fun e => targetSel.contains e)
  else targetEl.head?

/-- A decimal digit (code 48-57), as tested by the string-to-number model. -/
def jsDigit (c : Char) : Bool := 48 ≤ c.toNat && c.toNat ≤ 57

/-- A hexadecimal digit. -/
def jsHexDigit (c : Char) : Bool :=
  jsDigit c || (97 ≤ c.toNat && c.toNat ≤ 102) || (65 ≤ c.toNat && c.toNat ≤ 70)

/-- An octal digit. -/
def jsOctDigit (c : Char) : Bool := 48 ≤ c.toNat && c.toNat ≤ 55

/-- A binary digit. -/
def jsBinDigit (c : Char) : Bool := c.toNat = 48 || c.toNat = 49

/-- A character trimmed by JS string-to-number coercion: WhiteSpace (TAB,
VT, FF, SP, NBSP, ZWNBSP and the Unicode space separators) or a
LineTerminator (LF, CR, LS, PS). -/
def jsSpace (c : Char) : Bool :=
  c.toNat = 32 || c.toNat = 9 || c.toNat = 10 || c.toNat = 11 || c.toNat = 12 ||
  c.toNat = 13 || c.toNat = 160 || c.toNat = 65279 || c.toNat = 5760 ||
  (8192 ≤ c.toNat && c.toNat ≤ 8202) || c.toNat = 8239 || c.toNat = 8287 ||
  c.toNat = 12288 || c.toNat = 8232 || c.toNat = 8233

/-- The tail of an ExponentPart after the `e`/`E`: an optional sign and
then at least one decimal digit. -/
def jsSignedDigits : List Char → Bool
  | [] => false
  | c :: r =>
    if c = '+' || c = '-' then !r.isEmpty && r.all jsDigit
    else (c :: r).all jsDigit

/-- An ExponentPart: `e` or `E` followed by signed digits. -/
def jsExpPart : List Char → Bool
  | c :: r => (c = 'e' || c = 'E') && jsSignedDigits r
  | [] => false

/-- What may follow the leading DecimalDigits of an unsigned decimal
literal: nothing, a fraction with optional exponent, or an exponent. -/
def jsDecTail : List Char → Bool
  | [] => true
  | '.' :: r => (r.dropWhile jsDigit).isEmpty || jsExpPart (r.dropWhile jsDigit)
  | c :: r => jsExpPart (c :: r)

/-- StrUnsignedDecimalLiteral without the Infinity production:
`DecimalDigits [. DecimalDigits] [ExponentPart]` or
`. DecimalDigits [ExponentPart]`. -/
def jsUnsignedDec : List Char → Bool
  | '.' :: r =>
    !(r.takeWhile jsDigit).isEmpty &&
      ((r.dropWhile jsDigit).isEmpty || jsExpPart (r.dropWhile jsDigit))
  | l => !(l.takeWhile jsDigit).isEmpty && jsDecTail (l.dropWhile jsDigit)

/-- StrUnsignedDecimalLiteral: `Infinity` or an unsigned decimal. -/
def jsUnsignedDecOrInf (l : List Char) : Bool :=
  l == "Infinity".data || jsUnsignedDec l

/-- StrDecimalLiteral: an optional sign, then Infinity or an unsigned
decimal literal. -/
def jsStrDecimal : List Char → Bool
  | '+' :: r => jsUnsignedDecOrInf r
  | '-' :: r => jsUnsignedDecOrInf r
  | l => jsUnsignedDecOrInf l

/-- A NonDecimalIntegerLiteral: `0x`/`0X`, `0o`/`0O` or `0b`/`0B` followed
by at least one digit of the base (no sign allowed before these). -/
def jsNonDecimal : List Char → Bool
  | '0' :: c :: r =>
    ((c = 'x' || c = 'X') && !r.isEmpty && r.all jsHexDigit) ||
    ((c = 'o' || c = 'O') && !r.isEmpty && r.all jsOctDigit) ||
    ((c = 'b' || c = 'B') && !r.isEmpty && r.all jsBinDigit)
  | _ => false

/-- `!isNaN(s)` for a string, per the ECMAScript StringNumericLiteral
grammar: after trimming whitespace and line terminators from both ends,
the remainder is empty (it coerces to 0), a signed decimal literal or
Infinity, or an unsigned non-decimal integer literal. -/
def jsNumericStr (s : String) : Bool :=
  let l := ((s.data.dropWhile jsSpace).reverse.dropWhile jsSpace).reverse
  l.isEmpty || jsStrDecimal l || jsNonDecimal l

/-- The natural number a decimal-digit numeral denotes. -/
def strToNat (s : String) : Nat :=
  s.data.foldl (fun a c => a * 10 + (c.toNat - 48)) 0

/-- JavaScript truthiness of an `auto` value. -/
def jsTruthy : AutoVal → Bool
  | .absent => false
  | .num n => n != 0
  | .str s => s != ""
  | .boolTrue => true

/-- `isNaN(auto)`: number coercion of the value fails. Numbers and `true`
(which coerces to 1) are not NaN; a string is NaN exactly when it is not
accepted by the StringNumericLiteral grammar (`jsNumericStr`). -/
def jsIsNaN : AutoVal → Bool
  | .absent => true
  | .num _ => false
  | .str s => !jsNumericStr s
  | .boolTrue => false

/-- The number an `auto` value coerces to when used as a `setTimeout`
delay (`true` coerces to 1). The string case models the value for the
decimal-digit numerals the theorems assert; other grammar-accepted
strings take the timer branch with a delay the model leaves
uncharacterized. -/
def autoDelay : AutoVal → Nat
  | .absent => 0
  | .num n => n
  | .str s => strToNat s
  | .boolTrue => 1

/-- The process-level context read by setup: the document, the optional
breakpoints table, the viewport width (`document.body.offsetWidth`), the
names present as URL parameters or hash, and the document's
`data-toggle-close` attributes. -/
structure SetupCtx where
  dom : DomTree
  breakpoints : Option (List (String × Breakpoint)) := none
  bodyWidth : Nat := 0
  urlParams : List String := []
  closeAttr : List (Nat × List Nat) := []

/-- A breakpoint entry admits the viewport when each truthy bound is
satisfied (a 0 bound is falsy, hence unbounded on that side). -/
def breakpointAdmits (bp : Breakpoint) (width : Nat) : Bool :=
  (bp.min == 0 || width ≥ bp.min) && (bp.max == 0 || width ≤ bp.max)

/-- The auto-activation dispatch of `_setupTrigger`: nothing for a falsy
`auto`; a `Toggle.set` timer when `!isNaN(auto)` holds (which includes
boolean `true` and numeric strings, not only numbers); for remaining
strings, an immediate `Toggle.set` on a URL-parameter match, else a
breakpoints-table decision (`set` inside the bounds, `unset` outside or
when no entry exists), or nothing without a table; an immediate
`Toggle.set` for any other truthy value. -/
def autoApply (ctx : SetupCtx) (env : Env) (s : St) (t : Nat) (r : ToggleRec) : St :=
  if jsTruthy r.auto then
    if !jsIsNaN r.auto then
      addRawListener s (.setTimer t (autoDelay r.auto))
    else
      match r.auto with
      | .str p =>
        if ctx.urlParams.contains p then Toggle.set env s t ""
        else
          match ctx.breakpoints with
          | some table =>
            match table.find? (fun q => q.1 == p) with
            | some q =>
              if breakpointAdmits q.2 ctx.bodyWidth then Toggle.set env s t ""
              else Toggle.unset env s t
            | none => Toggle.unset env s t
          | none => s
      | _ => Toggle.set env s t ""
  else s

/-- The state accumulated while setting up triggers: the records and
back-references wired so far, the interaction handlers attached to
triggers, the warnings issued, and the runtime document state mutated by
auto-activation. -/
structure SetupSt where
  recs : List (Nat × ToggleRec) := []
  backRefs : List (Nat × Nat) := []
  handlers : List (Nat × String) := []
  warns : List Nat := []
  runtime : St := {}
deriving DecidableEq, Repr

/-- `(options.event || 'click').split(' ')`. -/
def jsEventList (e : String) : List String :=
  (if e == "" then "click" else e).splitOn " "

/-- `_setupTrigger`: resolve parent and target; if no target resolves, log a
warning and stop wiring this trigger; otherwise attach the record and the
target back-reference, attach one interaction handler per configured event
type, and run auto-activation against the bindings wired so far (this
trigger included). -/
def setupTrigger (ctx : SetupCtx) (st : SetupSt) (t : Nat) (o : TrigOpts) : SetupSt :=
  let parentEl := getParent ctx.dom t o.parent
  match getTarget ctx.dom parentEl o.target with
  | none => { st with warns := st.warns ++ [t] }
  | some g =>
    let r := mkRec o parentEl g
    let recs := st.recs ++ [(t, r)]
    let backRefs := (g, t) :: st.backRefs
    let handlers := st.handlers ++ (jsEventList o.event).map (fun ev => (t, ev))
    let env : Env :=
      { dom := ctx.dom, recs := recs, backRefs := backRefs, closeAttr := ctx.closeAttr }
    { recs := recs
      backRefs := backRefs
      handlers := handlers
      warns := st.warns
      runtime := autoApply ctx env st.runtime t r }

/-- Initialization over a collection of triggers: the element-iteration
helper invokes `_setupTrigger` once per trigger, in order. -/
def setupAll (ctx : SetupCtx) (st : SetupSt) (l : List (Nat × TrigOpts)) : SetupSt :=
  l.foldl (fun acc p => setupTrigger ctx acc p.1 p.2) st

/-! ### Basic state lemmas -/

@[simp]
theorem classes_logEv (s : St) (e : Ev) : (logEv s e).classes = s.classes := rfl

@[simp]
theorem listeners_logEv (s : St) (e : Ev) : (logEv s e).listeners = s.listeners := rfl

@[simp]
theorem trace_logEv (s : St) (e : Ev) : (logEv s e).trace = s.trace ++ [e] := rfl

@[simp]
theorem classes_addRawListener (s : St) (h : Handle) :
    (addRawListener s h).classes = s.classes := rfl

@[simp]
theorem trace_addRawListener (s : St) (h : Handle) :
    (addRawListener s h).trace = s.trace := rfl

@[simp]
theorem classes_addDedupListener (s : St) (h : Handle) :
    (addDedupListener s h).classes = s.classes := by
  unfold addDedupListener; split <;> rfl

@[simp]
theorem trace_addDedupListener (s : St) (h : Handle) :
    (addDedupListener s h).trace = s.trace := by
  unfold addDedupListener; split <;> rfl

@[simp]
theorem classes_eraseListener (s : St) (h : Handle) :
    (eraseListener s h).classes = s.classes := rfl

@[simp]
theorem trace_eraseListener (s : St) (h : Handle) :
    (eraseListener s h).trace = s.trace := rfl

@[simp]
theorem listeners_addClass (s : St) (e : Nat) (c : String) :
    (addClass s e c).listeners = s.listeners := by
  unfold addClass; split <;> rfl

@[simp]
theorem trace_addClass (s : St) (e : Nat) (c : String) :
    (addClass s e c).trace = s.trace := by
  unfold addClass; split <;> rfl

@[simp]
theorem listeners_removeClass (s : St) (e : Nat) (c : String) :
    (removeClass s e c).listeners = s.listeners := rfl

@[simp]
theorem trace_removeClass (s : St) (e : Nat) (c : String) :
    (removeClass s e c).trace = s.trace := rfl

@[simp]
theorem hasClass_logEv (s : St) (ev : Ev) (e : Nat) (c : String) :
    hasClass (logEv s ev) e c = hasClass s e c := rfl

theorem hasClass_iff_mem {s : St} {e : Nat} {c : String} :
    hasClass s e c = true ↔ (e, c) ∈ s.classes := by
  simp [hasClass]

theorem hasClass_addClass {s : St} {a e : Nat} {b c : String} :
    hasClass (addClass s a b) e c = true ↔ (e = a ∧ c = b) ∨ hasClass s e c = true := by
  by_cases h : s.classes.contains (a, b)
  · have hmem : (a, b) ∈ s.classes := by simpa using h
    simp only [addClass, h, if_pos, hasClass_iff_mem]
    constructor
    · exact Or.inr
    · rintro (⟨rfl, rfl⟩ | h') <;> [exact hmem; exact h']
  · simp only [addClass, h, if_neg, Bool.false_eq_true, not_false_iff, hasClass_iff_mem]
    simp [Prod.ext_iff]

theorem hasClass_removeClass {s : St} {a e : Nat} {b c : String} :
    hasClass (removeClass s a b) e c = true ↔
      hasClass s e c = true ∧ ¬(e = a ∧ c = b) := by
  simp [removeClass, hasClass_iff_mem, List.mem_filter, Prod.ext_iff]

theorem hasClass_addClass_of_ne {s : St} {a e : Nat} {b c : String}
    (h : ¬(e = a ∧ c = b)) : hasClass (addClass s a b) e c = hasClass s e c := by
  by_cases hc : hasClass s e c = true
  · rw [hc]; rw [hasClass_addClass]; exact Or.inr hc
  · simp only [Bool.not_eq_true] at hc
    rw [hc]
    rw [Bool.eq_false_iff]
    intro hcon
    rcases hasClass_addClass.mp hcon with h' | h'
    · exact h h'
    · rw [hc] at h'; cases h'

theorem hasClass_removeClass_of_ne {s : St} {a e : Nat} {b c : String}
    (h : ¬(e = a ∧ c = b)) : hasClass (removeClass s a b) e c = hasClass s e c := by
  by_cases hc : hasClass s e c = true
  · rw [hc]; rw [hasClass_removeClass]; exact ⟨hc, h⟩
  · simp only [Bool.not_eq_true] at hc
    rw [hc, Bool.eq_false_iff]
    intro hcon
    exact absurd (hasClass_removeClass.mp hcon).1 (by rw [hc]; simp)

@[simp]
theorem hasClass_removeClass_self {s : St} {a : Nat} {b : String} :
    hasClass (removeClass s a b) a b = false := by
  rw [Bool.eq_false_iff]
  intro h
  exact (hasClass_removeClass.mp h).2 ⟨rfl, rfl⟩

theorem bindingOf_mem {env : Env} {t : Nat} {r : ToggleRec}
    (h : bindingOf env t = some r) : (t, r) ∈ env.recs := by
  unfold bindingOf at h
  cases hf : env.recs.find? (fun p => p.1 == t) with
  | none => rw [hf] at h; cases h
  | some p =>
    rw [hf] at h
    have hmem := List.mem_of_find?_eq_some hf
    have hpred := List.find?_some hf
    simp only [beq_iff_eq] at hpred
    cases h
    cases p
    cases hpred
    exact hmem

@[simp]
theorem hasClass_eraseListener (s : St) (h : Handle) (e : Nat) (c : String) :
    hasClass (eraseListener s h) e c = hasClass s e c := rfl

@[simp]
theorem hasClass_addRawListener (s : St) (h : Handle) (e : Nat) (c : String) :
    hasClass (addRawListener s h) e c = hasClass s e c := rfl

@[simp]
theorem hasClass_addDedupListener (s : St) (h : Handle) (e : Nat) (c : String) :
    hasClass (addDedupListener s h) e c = hasClass s e c := by
  unfold addDedupListener hasClass; split <;> rfl

/-- Removing a class from three elements clears it on each of them. -/
theorem hasClass_remove3 {s : St} {t p g x : Nat} {c : String}
    (hx : x = t ∨ x = p ∨ x = g) :
    hasClass (removeClass (removeClass (removeClass s t c) p c) g c) x c = false := by
  rw [Bool.eq_false_iff]
  intro hcon
  have h1 := hasClass_removeClass.mp hcon
  have h2 := hasClass_removeClass.mp h1.1
  have h3 := hasClass_removeClass.mp h2.1
  rcases hx with rfl | rfl | rfl
  · exact h3.2 ⟨rfl, rfl⟩
  · exact h2.2 ⟨rfl, rfl⟩
  · exact h1.2 ⟨rfl, rfl⟩

/-! ### Characterizing `unsetRec` on the class state -/

namespace Toggle

theorem unsetRec_of_inactive {s : St} {t : Nat} {r : ToggleRec}
    (h : hasClass s t r.activeClass = false) : unsetRec s t r = s := by
  unfold unsetRec
  rw [h]
  simp

theorem classes_unsetRec_of_veto {s : St} {t : Nat} {r : ToggleRec}
    (h : r.beforeUnset = false) : (unsetRec s t r).classes = s.classes := by
  unfold unsetRec
  rw [h]
  split <;> rfl

theorem listeners_unsetRec_of_veto {s : St} {t : Nat} {r : ToggleRec}
    (h : r.beforeUnset = false) : (unsetRec s t r).listeners = s.listeners := by
  unfold unsetRec
  rw [h]
  split <;> rfl

/-- `unsetRec` never adds a class. -/
theorem hasClass_of_unsetRec {s : St} {t : Nat} {r : ToggleRec} {e : Nat} {c : String}
    (h : hasClass (unsetRec s t r) e c = true) : hasClass s e c = true := by
  unfold unsetRec at h
  split at h
  · split at h
    · simp only [hasClass_logEv, hasClass_eraseListener] at h
      exact (hasClass_removeClass.mp ((hasClass_removeClass.mp
        ((hasClass_removeClass.mp h).1)).1)).1
    · simpa using h
  · exact h

/-- `unsetRec` touches no element outside the trigger's own triple. -/
theorem hasClass_unsetRec_of_notin {s : St} {t : Nat} {r : ToggleRec} {e : Nat} {c : String}
    (h1 : e ≠ t) (h2 : e ≠ r.parentEl) (h3 : e ≠ r.targetEl) :
    hasClass (unsetRec s t r) e c = hasClass s e c := by
  unfold unsetRec
  split
  · split
    · simp only [hasClass_logEv, hasClass_eraseListener]
      rw [hasClass_removeClass_of_ne (fun hp => h3 hp.1),
        hasClass_removeClass_of_ne (fun hp => h2 hp.1),
        hasClass_removeClass_of_ne (fun hp => h1 hp.1)]
      rfl
    · rfl
  · rfl

/-- After a successful `unsetRec`, the active class is gone from all of
trigger, parent and target. -/
theorem hasClass_unsetRec_triple {s : St} {t : Nat} {r : ToggleRec} {e : Nat}
    (hact : hasClass s t r.activeClass = true) (hhook : r.beforeUnset = true)
    (he : e = t ∨ e = r.parentEl ∨ e = r.targetEl) :
    hasClass (unsetRec s t r) e r.activeClass = false := by
  unfold unsetRec
  rw [hact, hhook]
  simp only [if_pos, hasClass_logEv, hasClass_eraseListener]
  exact hasClass_remove3 he

end Toggle

/-! ### The marker-agreement invariant -/

/-- The elements a bound trigger touches: itself, its parent, its target. -/
def tripleOf (p : Nat × ToggleRec) : List Nat :=
  [p.1, p.2.parentEl, p.2.targetEl]

/-- No element serves in two different bound triggers' triples: distinct
bindings have disjoint (trigger, parent, target) element sets. -/
def NoAlias (env : Env) : Prop :=
  ∀ a ∈ env.recs, ∀ b ∈ env.recs, a ≠ b → ∀ x ∈ tripleOf a, x ∉ tripleOf b

/-- The active marker agrees on a bound trigger's three elements: parent and
target carry the trigger's active class exactly when the trigger does. -/
def Agrees (s : St) (p : Nat × ToggleRec) : Prop :=
  hasClass s p.2.parentEl p.2.activeClass = hasClass s p.1 p.2.activeClass ∧
  hasClass s p.2.targetEl p.2.activeClass = hasClass s p.1 p.2.activeClass

/-- The §3 invariant: the marker is never partially applied, for any bound
trigger. -/
def Invariant (env : Env) (s : St) : Prop :=
  ∀ p ∈ env.recs, Agrees s p

instance (env : Env) : Decidable (NoAlias env) := by
  unfold NoAlias; infer_instance

instance (s : St) (p : Nat × ToggleRec) : Decidable (Agrees s p) := by
  unfold Agrees; infer_instance

instance (env : Env) (s : St) : Decidable (Invariant env s) := by
  unfold Invariant; infer_instance

theorem agrees_of_classes_eq {s s' : St} {p : Nat × ToggleRec}
    (h : s'.classes = s.classes) (ha : Agrees s p) : Agrees s' p := by
  unfold Agrees at ha ⊢
  unfold hasClass at ha ⊢
  rw [h]
  exact ha

/-- Under `NoAlias`, an entry whose trigger element has a binding is that
binding. -/
theorem entry_eq_of_noAlias {env : Env} {t : Nat} {r : ToggleRec}
    {p : Nat × ToggleRec} (hNA : NoAlias env) (hb : bindingOf env t = some r)
    (hp : p ∈ env.recs) (hpt : p.1 = t) : p = (t, r) := by
  by_contra hne
  have hmem := bindingOf_mem hb
  have hx := hNA p hp (t, r) hmem hne t (by simp [tripleOf, hpt])
  exact hx (by simp [tripleOf])

namespace Toggle

theorem unsetRec_preserves_inv {env : Env} {s : St} {t : Nat} {r : ToggleRec}
    (hNA : NoAlias env) (hb : bindingOf env t = some r)
    (hInv : Invariant env s) : Invariant env (unsetRec s t r) := by
  intro p hp
  by_cases hpt : p.1 = t
  · have hpe := entry_eq_of_noAlias hNA hb hp hpt
    subst hpe
    by_cases hact : hasClass s t r.activeClass = true
    · by_cases hhook : r.beforeUnset = true
      · constructor
        · rw [hasClass_unsetRec_triple hact hhook (Or.inr (Or.inl rfl)),
            hasClass_unsetRec_triple hact hhook (Or.inl rfl)]
        · rw [hasClass_unsetRec_triple hact hhook (Or.inr (Or.inr rfl)),
            hasClass_unsetRec_triple hact hhook (Or.inl rfl)]
      · rw [Bool.not_eq_true] at hhook
        exact agrees_of_classes_eq (classes_unsetRec_of_veto hhook) (hInv _ hp)
    · rw [Bool.not_eq_true] at hact
      rw [unsetRec_of_inactive hact]
      exact hInv _ hp
  · have hne : p ≠ (t, r) := fun hc => hpt (by rw [hc])
    have hmem := bindingOf_mem hb
    have hdisj := hNA p hp (t, r) hmem hne
    have h1 : p.1 ≠ t ∧ p.1 ≠ r.parentEl ∧ p.1 ≠ r.targetEl := by
      have := hdisj p.1 (by simp [tripleOf])
      simp [tripleOf] at this
      exact this
    have h2 : p.2.parentEl ≠ t ∧ p.2.parentEl ≠ r.parentEl ∧ p.2.parentEl ≠ r.targetEl := by
      have := hdisj p.2.parentEl (by simp [tripleOf])
      simp [tripleOf] at this
      exact this
    have h3 : p.2.targetEl ≠ t ∧ p.2.targetEl ≠ r.parentEl ∧ p.2.targetEl ≠ r.targetEl := by
      have := hdisj p.2.targetEl (by simp [tripleOf])
      simp [tripleOf] at this
      exact this
    have ha := hInv _ hp
    unfold Agrees at ha ⊢
    rw [hasClass_unsetRec_of_notin h1.1 h1.2.1 h1.2.2,
      hasClass_unsetRec_of_notin h2.1 h2.2.1 h2.2.2,
      hasClass_unsetRec_of_notin h3.1 h3.2.1 h3.2.2]
    exact ha

theorem sweepStep_preserves_inv {env : Env} {ref : ToggleRec} {acc : St} {e : Nat}
    (hNA : NoAlias env) (hInv : Invariant env acc) :
    Invariant env (sweepStep env ref acc e) := by
  unfold sweepStep
  split
  next re hb =>
    split
    · exact unsetRec_preserves_inv hNA hb hInv
    · exact hInv
  next => exact hInv

theorem sweepFold_preserves_inv {env : Env} {ref : ToggleRec}
    (hNA : NoAlias env) :
    ∀ (l : List Nat) (acc : St), Invariant env acc →
      Invariant env (l.foldl (sweepStep env ref) acc)
  | [], _, hInv => hInv
  | e :: l, acc, hInv =>
    sweepFold_preserves_inv hNA l (sweepStep env ref acc e)
      (sweepStep_preserves_inv hNA hInv)

theorem unsetAllRec_preserves_inv {env : Env} {s : St} {ref : ToggleRec}
    (hNA : NoAlias env) (hInv : Invariant env s) :
    Invariant env (unsetAllRec env s ref) :=
  sweepFold_preserves_inv hNA _ s hInv

end Toggle

theorem invariant_of_classes_eq {env : Env} {s s' : St}
    (h : s'.classes = s.classes) (hInv : Invariant env s) : Invariant env s' :=
  fun p hp => agrees_of_classes_eq h (hInv p hp)

@[simp]
theorem hasClass_ite_addRawListener (b : Bool) (s : St) (h : Handle) (e : Nat) (c : String) :
    hasClass (if b then addRawListener s h else s) e c = hasClass s e c := by
  split <;> simp

/-- Adding a class to three elements makes it present on each of them. -/
theorem hasClass_add3_triple {s : St} {t p g x : Nat} {c : String}
    (hx : x = t ∨ x = p ∨ x = g) :
    hasClass (addClass (addClass (addClass s t c) p c) g c) x c = true := by
  rcases hx with rfl | rfl | rfl
  · exact hasClass_addClass.mpr (Or.inr (hasClass_addClass.mpr
      (Or.inr (hasClass_addClass.mpr (Or.inl ⟨rfl, rfl⟩)))))
  · exact hasClass_addClass.mpr (Or.inr (hasClass_addClass.mpr (Or.inl ⟨rfl, rfl⟩)))
  · exact hasClass_addClass.mpr (Or.inl ⟨rfl, rfl⟩)

/-- Adding a class to three elements touches no other element. -/
theorem hasClass_add3_of_notin {s : St} {t p g e : Nat} {c d : String}
    (h1 : e ≠ t) (h2 : e ≠ p) (h3 : e ≠ g) :
    hasClass (addClass (addClass (addClass s t c) p c) g c) e d = hasClass s e d := by
  rw [hasClass_addClass_of_ne (fun hp => h3 hp.1),
    hasClass_addClass_of_ne (fun hp => h2 hp.1),
    hasClass_addClass_of_ne (fun hp => h1 hp.1)]

namespace Toggle

theorem setRec_preserves_inv {env : Env} {s : St} {t : Nat} {r : ToggleRec}
    {ty : String} (hNA : NoAlias env) (hb : bindingOf env t = some r)
    (hInv : Invariant env s) : Invariant env (setRec env s t r ty) := by
  unfold setRec
  by_cases hbs : r.beforeSet = true
  · rw [hbs]
    simp only [if_pos]
    have hInv3 :
        Invariant env (if r.beforeUnsetAll then
          unsetAllRec env (logEv (logEv s (Ev.beforeSetCall t)) (Ev.beforeUnsetAllCall t)) r
        else logEv (logEv s (Ev.beforeSetCall t)) (Ev.beforeUnsetAllCall t)) := by
      split
      · exact unsetAllRec_preserves_inv hNA (invariant_of_classes_eq rfl hInv)
      · exact invariant_of_classes_eq rfl hInv
    intro p hp
    by_cases hpt : p.1 = t
    · have hpe := entry_eq_of_noAlias hNA hb hp hpt
      subst hpe
      constructor
      · simp only [hasClass_logEv, hasClass_addDedupListener, hasClass_ite_addRawListener]
        rw [hasClass_add3_triple (Or.inr (Or.inl rfl)), hasClass_add3_triple (Or.inl rfl)]
      · simp only [hasClass_logEv, hasClass_addDedupListener, hasClass_ite_addRawListener]
        rw [hasClass_add3_triple (Or.inr (Or.inr rfl)), hasClass_add3_triple (Or.inl rfl)]
    · have hne : p ≠ (t, r) := fun hc => hpt (by rw [hc])
      have hmem := bindingOf_mem hb
      have hdisj := hNA p hp (t, r) hmem hne
      have h1 : p.1 ≠ t ∧ p.1 ≠ r.parentEl ∧ p.1 ≠ r.targetEl := by
        have := hdisj p.1 (by simp [tripleOf])
        simp [tripleOf] at this
        exact this
      have h2 : p.2.parentEl ≠ t ∧ p.2.parentEl ≠ r.parentEl ∧ p.2.parentEl ≠ r.targetEl := by
        have := hdisj p.2.parentEl (by simp [tripleOf])
        simp [tripleOf] at this
        exact this
      have h3 : p.2.targetEl ≠ t ∧ p.2.targetEl ≠ r.parentEl ∧ p.2.targetEl ≠ r.targetEl := by
        have := hdisj p.2.targetEl (by simp [tripleOf])
        simp [tripleOf] at this
        exact this
      have ha := hInv3 _ hp
      unfold Agrees at ha ⊢
      simp only [hasClass_logEv, hasClass_addDedupListener, hasClass_ite_addRawListener]
      rw [hasClass_add3_of_notin h1.1 h1.2.1 h1.2.2,
        hasClass_add3_of_notin h2.1 h2.2.1 h2.2.2,
        hasClass_add3_of_notin h3.1 h3.2.1 h3.2.2]
      exact ha
  · rw [Bool.not_eq_true] at hbs
    rw [hbs]
    simp only [Bool.false_eq_true, if_neg, not_false_iff]
    exact invariant_of_classes_eq rfl hInv

theorem set_preserves_inv {env : Env} {s : St} {t : Nat} {ty : String}
    (hNA : NoAlias env) (hInv : Invariant env s) :
    Invariant env (set env s t ty) := by
  unfold set
  split
  next r hb => exact setRec_preserves_inv hNA hb hInv
  next => exact hInv

theorem unset_preserves_inv {env : Env} {s : St} {t : Nat}
    (hNA : NoAlias env) (hInv : Invariant env s) :
    Invariant env (unset env s t) := by
  unfold unset
  split
  next r hb => exact unsetRec_preserves_inv hNA hb hInv
  next => exact hInv

theorem toggle_preserves_inv {env : Env} {s : St} {t : Nat} {ty : String}
    (hNA : NoAlias env) (hInv : Invariant env s) :
    Invariant env (toggle env s t ty) := by
  unfold toggle
  split
  next r hb =>
    split
    · split
      · exact unsetRec_preserves_inv hNA hb hInv
      · exact hInv
    · exact setRec_preserves_inv hNA hb hInv
  next => exact hInv

theorem unsetAll_preserves_inv {env : Env} {s : St} {t : Nat}
    (hNA : NoAlias env) (hInv : Invariant env s) :
    Invariant env (unsetAll env s t) := by
  unfold unsetAll
  split
  next r hb => exact unsetAllRec_preserves_inv hNA hInv
  next => exact hInv

theorem blurFire_preserves_inv {env : Env} {s : St} {t : Nat} {ty : String} {x : Nat}
    (hNA : NoAlias env) (hInv : Invariant env s) :
    Invariant env (blurFire env s t ty x) := by
  unfold blurFire
  split
  · split
    next r hb =>
      split
      · exact unset_preserves_inv hNA (invariant_of_classes_eq rfl hInv)
      · exact hInv
    next => exact hInv
  · exact hInv

theorem hoverFire_preserves_inv {env : Env} {s : St} {t : Nat}
    (hNA : NoAlias env) (hInv : Invariant env s) :
    Invariant env (hoverFire env s t) := by
  unfold hoverFire
  split
  · exact unset_preserves_inv hNA (invariant_of_classes_eq rfl hInv)
  · exact hInv

theorem timerFire_preserves_inv {env : Env} {s : St} {t : Nat} {ms : Nat}
    (hNA : NoAlias env) (hInv : Invariant env s) :
    Invariant env (timerFire env s t ms) := by
  unfold timerFire
  split
  · exact unset_preserves_inv hNA (invariant_of_classes_eq rfl hInv)
  · exact hInv

theorem setTimerFire_preserves_inv {env : Env} {s : St} {t : Nat} {ms : Nat}
    (hNA : NoAlias env) (hInv : Invariant env s) :
    Invariant env (setTimerFire env s t ms) := by
  unfold setTimerFire
  split
  · exact set_preserves_inv hNA (invariant_of_classes_eq rfl hInv)
  · exact hInv

theorem innerClickFire_preserves_inv {env : Env} {s : St} {g x : Nat}
    (hNA : NoAlias env) (hInv : Invariant env s) :
    Invariant env (innerClickFire env s g x) := by
  unfold innerClickFire
  split
  · split
    next t hbr =>
      split
      next r hb =>
        split
        next ce hce =>
          split
          next disc hdisc =>
            split
            · exact unset_preserves_inv hNA hInv
            · exact hInv
          next => exact unset_preserves_inv hNA hInv
        next => exact hInv
      next => exact hInv
    next => exact hInv
  · exact hInv

end Toggle

/-! ### Claim C1 -/

/-- Document for the C1 counterexample: a container (1) holding two trigger
elements (2, 3) and two content regions (4, 5). -/
def c1dom : DomTree := .node 0 [.node 1 [.node 2 [], .node 3 [], .node 4 [], .node 5 []]]

/-- First C1 trigger: persistent, parent 1, target 4. -/
def c1recA : ToggleRec := { parentEl := 1, targetEl := 4, persist := true }

/-- Second C1 trigger: persistent, same parent 1, target 5. -/
def c1recB : ToggleRec := { parentEl := 1, targetEl := 5, persist := true }

/-- C1 counterexample environment: two triggers sharing one parent. -/
def c1env : Env := { dom := c1dom, recs := [(2, c1recA), (3, c1recB)] }

/-- C1 counterexample run: activate both triggers, then unset the first. -/
def c1final : St :=
  Toggle.unset c1env (Toggle.set c1env (Toggle.set c1env {} 2 "") 3 "") 2

/-- C1 is false as stated: with two set-up triggers sharing a parent
(trigger 2 and trigger 3 both have parentEl 1), activating both and then
unsetting trigger 2 leaves trigger 3 carrying the active marker while its
parentEl 1 does not — the marker is left partially applied after an
`unset` returns. -/
theorem active_marker_partial_cex :
    bindingOf c1env 3 = some c1recB ∧
    c1recB.parentEl = 1 ∧
    hasClass c1final 3 c1recB.activeClass = true ∧
    hasClass c1final 1 c1recB.activeClass = false := by
  constructor
  · decide
  · exact ⟨rfl, by decide, by decide⟩

/-- C1 (amended): provided no element serves in two distinct bound
triggers' (trigger, parentEl, targetEl) triples, every operation of the
state machine — set, unset, toggle, unsetAll, and every dismissal path
(outside interaction, hover-out, timeout, auto-activation timer, inner
dismiss control) — preserves the invariant that each bound trigger, its
parentEl and its targetEl all carry the trigger's active marker class or
all lack it: a trigger is Active exactly when the marker sits on all three
elements simultaneously, and the marker is never left partially applied. -/
theorem invariant_preserved_all_ops (env : Env) (s : St)
    (hNA : NoAlias env) (hInv : Invariant env s) :
    (∀ t ty, Invariant env (Toggle.set env s t ty)) ∧
    (∀ t, Invariant env (Toggle.unset env s t)) ∧
    (∀ t ty, Invariant env (Toggle.toggle env s t ty)) ∧
    (∀ t, Invariant env (Toggle.unsetAll env s t)) ∧
    (∀ t ty x, Invariant env (Toggle.blurFire env s t ty x)) ∧
    (∀ t, Invariant env (Toggle.hoverFire env s t)) ∧
    (∀ t ms, Invariant env (Toggle.timerFire env s t ms)) ∧
    (∀ t ms, Invariant env (Toggle.setTimerFire env s t ms)) ∧
    (∀ g x, Invariant env (Toggle.innerClickFire env s g x)) :=
  ⟨fun _ _ => Toggle.set_preserves_inv hNA hInv,
   fun _ => Toggle.unset_preserves_inv hNA hInv,
   fun _ _ => Toggle.toggle_preserves_inv hNA hInv,
   fun _ => Toggle.unsetAll_preserves_inv hNA hInv,
   fun _ _ _ => Toggle.blurFire_preserves_inv hNA hInv,
   fun _ => Toggle.hoverFire_preserves_inv hNA hInv,
   fun _ _ => Toggle.timerFire_preserves_inv hNA hInv,
   fun _ _ => Toggle.setTimerFire_preserves_inv hNA hInv,
   fun _ _ => Toggle.innerClickFire_preserves_inv hNA hInv⟩

/-- Witness environment for the C1 theorem: one trigger, no aliasing. -/
def c1wenv : Env :=
  { dom := .node 0 [.node 1 [.node 2 [], .node 4 []]]
    recs := [(2, { parentEl := 1, targetEl := 4 })] }

/-- C1 witness: the amended invariant theorem applies at a concrete
one-trigger environment with its hypotheses discharged by evaluation. -/
theorem invariant_preserved_all_ops_witness :
    NoAlias c1wenv ∧ Invariant c1wenv {} ∧
      Invariant c1wenv (Toggle.set c1wenv {} 2 "click") :=
  ⟨by decide, by decide,
   (invariant_preserved_all_ops c1wenv {} (by decide) (by decide)).1 2 "click"⟩

/-! ### Claims C3, C4, C5 -/

/-- C3: when a trigger's beforeSet hook returns false, `set` aborts with no
state change and no side effects — no marker class is added anywhere, no
dismissal listener or timer is registered, and the only hook invoked is
beforeSet itself (no beforeUnsetAll, afterSet, or unset hook runs). -/
theorem beforeSet_false_aborts (env : Env) (s : St) (t : Nat) (r : ToggleRec)
    (ty : String) (hb : bindingOf env t = some r) (hv : r.beforeSet = false) :
    (Toggle.set env s t ty).classes = s.classes ∧
    (Toggle.set env s t ty).listeners = s.listeners ∧
    (Toggle.set env s t ty).trace = s.trace ++ [Ev.beforeSetCall t] := by
  unfold Toggle.set Toggle.setRec
  rw [hb]
  simp [hv]

/-- C3 witness environment: a single wired trigger whose beforeSet vetoes. -/
def c3wenv : Env :=
  { dom := .node 0 [.node 1 [.node 2 [], .node 4 []]]
    recs := [(2, { parentEl := 1, targetEl := 4, beforeSet := false })] }

/-- C3 witness: the abort theorem applied at a concrete vetoing trigger. -/
theorem beforeSet_false_aborts_witness :
    (Toggle.set c3wenv {} 2 "click").classes = [] ∧
    (Toggle.set c3wenv {} 2 "click").listeners = [] ∧
    (Toggle.set c3wenv {} 2 "click").trace = [Ev.beforeSetCall 2] :=
  beforeSet_false_aborts c3wenv {} 2
    { parentEl := 1, targetEl := 4, beforeSet := false } "click" (by decide) rfl

/-- C4: `toggle` unsets an Active trigger unless the interaction is a
hover-enter or `unsetSelf` is false (in which case it does nothing at
all), and sets an Inactive trigger. -/
theorem toggle_dispatch (env : Env) (s : St) (t : Nat) (r : ToggleRec)
    (ty : String) (hb : bindingOf env t = some r) :
    (hasClass s t r.activeClass = true → r.unsetSelf = true → ty ≠ "mouseenter" →
      Toggle.toggle env s t ty = Toggle.unset env s t) ∧
    (hasClass s t r.activeClass = true → (r.unsetSelf = false ∨ ty = "mouseenter") →
      Toggle.toggle env s t ty = s) ∧
    (hasClass s t r.activeClass = false →
      Toggle.toggle env s t ty = Toggle.set env s t ty) := by
  refine ⟨?_, ?_, ?_⟩
  · intro hact hus hne
    unfold Toggle.toggle Toggle.unset
    rw [hb]
    simp [hact, hus, hne]
  · intro hact hcase
    unfold Toggle.toggle
    rw [hb]
    rcases hcase with hus | hty
    · simp [hact, hus]
    · simp [hact, hty]
  · intro hact
    unfold Toggle.toggle Toggle.set
    rw [hb]
    simp [hact]

/-- C4 witness environment: one wired trigger. -/
def c4wenv : Env :=
  { dom := .node 0 [.node 1 [.node 2 [], .node 4 []]]
    recs := [(2, { parentEl := 1, targetEl := 4 })] }

/-- C4 witness: on a concrete Inactive trigger, `toggle` is `set`. -/
theorem toggle_dispatch_witness :
    Toggle.toggle c4wenv {} 2 "click" = Toggle.set c4wenv {} 2 "click" :=
  (toggle_dispatch c4wenv {} 2 { parentEl := 1, targetEl := 4 } "click"
    (by decide)).2.2 (by decide)

/-- C5: `unset` is a no-op unless the trigger is Active and beforeUnset
permits; on success it strips the marker from trigger, parentEl and
targetEl (touching no other element), removes the inner-click dismissal
listener from targetEl, and invokes afterUnset; otherwise classes and
listeners are unchanged and no after-hook runs. -/
theorem unset_guard_and_effects (env : Env) (s : St) (t : Nat) (r : ToggleRec)
    (hb : bindingOf env t = some r) :
    (hasClass s t r.activeClass = false → Toggle.unset env s t = s) ∧
    (hasClass s t r.activeClass = true → r.beforeUnset = false →
      (Toggle.unset env s t).classes = s.classes ∧
      (Toggle.unset env s t).listeners = s.listeners ∧
      (Toggle.unset env s t).trace = s.trace ++ [Ev.beforeUnsetCall t]) ∧
    (hasClass s t r.activeClass = true → r.beforeUnset = true →
      hasClass (Toggle.unset env s t) t r.activeClass = false ∧
      hasClass (Toggle.unset env s t) r.parentEl r.activeClass = false ∧
      hasClass (Toggle.unset env s t) r.targetEl r.activeClass = false ∧
      (∀ e c, e ≠ t → e ≠ r.parentEl → e ≠ r.targetEl →
        hasClass (Toggle.unset env s t) e c = hasClass s e c) ∧
      (Toggle.unset env s t).listeners = s.listeners.erase (Handle.innerClick r.targetEl) ∧
      (Toggle.unset env s t).trace = s.trace ++ [Ev.beforeUnsetCall t, Ev.afterUnsetCall t]) := by
  have hset : Toggle.unset env s t = Toggle.unsetRec s t r := by
    unfold Toggle.unset
    rw [hb]
  refine ⟨?_, ?_, ?_⟩
  · intro hact
    rw [hset]
    exact Toggle.unsetRec_of_inactive hact
  · intro hact hv
    rw [hset]
    refine ⟨Toggle.classes_unsetRec_of_veto hv, Toggle.listeners_unsetRec_of_veto hv, ?_⟩
    unfold Toggle.unsetRec
    rw [hact, hv]
    simp
  · intro hact hv
    rw [hset]
    refine ⟨Toggle.hasClass_unsetRec_triple hact hv (Or.inl rfl),
      Toggle.hasClass_unsetRec_triple hact hv (Or.inr (Or.inl rfl)),
      Toggle.hasClass_unsetRec_triple hact hv (Or.inr (Or.inr rfl)),
      fun e c h1 h2 h3 => Toggle.hasClass_unsetRec_of_notin h1 h2 h3, ?_, ?_⟩
    · unfold Toggle.unsetRec
      rw [hact, hv]
      simp [eraseListener, addRawListener, logEv, removeClass]
    · unfold Toggle.unsetRec
      rw [hact, hv]
      simp [eraseListener, logEv, removeClass]

/-- C5 witness environment: one wired trigger. -/
def c5wenv : Env :=
  { dom := .node 0 [.node 1 [.node 2 [], .node 4 []]]
    recs := [(2, { parentEl := 1, targetEl := 4 })] }

/-- C5 witness: on a concrete Inactive trigger, `unset` is the identity. -/
theorem unset_guard_and_effects_witness :
    Toggle.unset c5wenv {} 2 = ({} : St) :=
  (unset_guard_and_effects c5wenv {} 2 { parentEl := 1, targetEl := 4 }
    (by decide)).1 (by decide)

/-! ### Sweep fold lemmas -/

namespace Toggle

theorem sweepStep_noAdd {env : Env} {ref : ToggleRec} {acc : St} {e x : Nat}
    {c : String} (h : hasClass (sweepStep env ref acc e) x c = true) :
    hasClass acc x c = true := by
  unfold sweepStep at h
  split at h
  next re hb =>
    split at h
    · exact hasClass_of_unsetRec h
    · exact h
  next => exact h

theorem sweepFold_noAdd {env : Env} {ref : ToggleRec} {x : Nat} {c : String} :
    ∀ (l : List Nat) (acc : St),
      hasClass (l.foldl (sweepStep env ref) acc) x c = true → hasClass acc x c = true
  | [], _, h => h
  | e :: l, acc, h => sweepStep_noAdd (sweepFold_noAdd l (sweepStep env ref acc e) h)

theorem sweepFold_false {env : Env} {ref : ToggleRec} {x : Nat} {c : String}
    {l : List Nat} {acc : St} (h : hasClass acc x c = false) :
    hasClass (l.foldl (sweepStep env ref) acc) x c = false := by
  rw [Bool.eq_false_iff]
  intro hcon
  rw [sweepFold_noAdd l acc hcon] at h
  cases h

/-- A sweep step on a guard-passing bound trigger leaves it without its
active class. -/
theorem sweepStep_unsets {env : Env} {ref : ToggleRec} {acc : St} {u : Nat}
    {ru : ToggleRec} (hb : bindingOf env u = some ru)
    (hskip : selMatches ref.skipSelector u = false)
    (hper : ru.persist = false ∨ selMatches ref.siblingSelector u = true)
    (hhook : ru.beforeUnset = true) :
    hasClass (sweepStep env ref acc u) u ru.activeClass = false := by
  unfold sweepStep
  simp only [hb]
  have hguard : (!selMatches ref.skipSelector u
      && (!ru.persist || selMatches ref.siblingSelector u)) = true := by
    rw [hskip]
    rcases hper with hp | hs
    · rw [hp]; rfl
    · rw [hs]; simp
  rw [hguard]
  simp only [if_pos]
  by_cases hact : hasClass acc u ru.activeClass = true
  · exact hasClass_unsetRec_triple hact hhook (Or.inl rfl)
  · rw [Bool.not_eq_true] at hact
    rw [unsetRec_of_inactive hact]
    exact hact

theorem sweepFold_unsets {env : Env} {ref : ToggleRec} {u : Nat} {ru : ToggleRec}
    (hb : bindingOf env u = some ru)
    (hskip : selMatches ref.skipSelector u = false)
    (hper : ru.persist = false ∨ selMatches ref.siblingSelector u = true)
    (hhook : ru.beforeUnset = true) :
    ∀ (l : List Nat) (acc : St), u ∈ l →
      hasClass (l.foldl (sweepStep env ref) acc) u ru.activeClass = false := by
  intro l
  induction l with
  | nil => intro acc hmem; cases hmem
  | cons w l ih =>
    intro acc hmem
    by_cases hw : w = u
    · subst hw
      rw [List.foldl_cons]
      exact sweepFold_false (sweepStep_unsets hb hskip hper hhook)
    · rcases List.mem_cons.mp hmem with hew | hel
      · exact absurd hew.symm hw
      · exact ih (sweepStep env ref acc w) hel

/-- A sweep step is the identity on an element it must skip: one without a
binding, one matching the skip selector, or a persistent one outside the
sibling group. -/
theorem sweepStep_skip {env : Env} {ref : ToggleRec} {u : Nat}
    (h : bindingOf env u = none ∨
      ∃ ru, bindingOf env u = some ru ∧
        (selMatches ref.skipSelector u = true ∨
          (ru.persist = true ∧ selMatches ref.siblingSelector u = false))) :
    ∀ acc : St, sweepStep env ref acc u = acc := by
  intro acc
  unfold sweepStep
  rcases h with hn | ⟨ru, hb, hcase⟩
  · simp only [hn]
  · simp only [hb]
    have hguard : (!selMatches ref.skipSelector u
        && (!ru.persist || selMatches ref.siblingSelector u)) = false := by
      rcases hcase with hs | ⟨hp, hsib⟩
      · rw [hs]; rfl
      · rw [hp, hsib]; simp
    rw [hguard]
    simp

/-- The events a sweep step appends concern the stepped element only. -/
theorem trace_sweepStep_sub {env : Env} {ref : ToggleRec} {acc : St} {e : Nat}
    {ev : Ev} (h : ev ∈ (sweepStep env ref acc e).trace) :
    ev ∈ acc.trace ∨ ev = .beforeUnsetCall e ∨ ev = .afterUnsetCall e := by
  unfold sweepStep at h
  split at h
  next re hb =>
    split at h
    · unfold unsetRec at h
      split at h
      · split at h
        · simp only [trace_logEv, hasClass_eraseListener, classes_eraseListener,
            trace_eraseListener, trace_removeClass, List.mem_append,
            List.mem_singleton, List.mem_cons, List.not_mem_nil] at h
          tauto
        · simp only [trace_logEv, List.mem_append, List.mem_singleton] at h
          tauto
      · exact Or.inl h
    · exact Or.inl h
  next => exact Or.inl h

/-- Elements the sweep must skip never have their beforeUnset hook invoked
by the sweep. -/
theorem sweepFold_no_unset_call {env : Env} {ref : ToggleRec} {u : Nat}
    (hskip : bindingOf env u = none ∨
      ∃ ru, bindingOf env u = some ru ∧
        (selMatches ref.skipSelector u = true ∨
          (ru.persist = true ∧ selMatches ref.siblingSelector u = false))) :
    ∀ (l : List Nat) (acc : St), Ev.beforeUnsetCall u ∉ acc.trace →
      Ev.beforeUnsetCall u ∉ (l.foldl (sweepStep env ref) acc).trace := by
  intro l
  induction l with
  | nil => intro acc h; exact h
  | cons w l ih =>
    intro acc h
    by_cases hw : w = u
    · subst hw
      rw [List.foldl_cons, sweepStep_skip hskip acc]
      exact ih acc h
    · refine ih (sweepStep env ref acc w) ?_
      intro hcon
      rcases trace_sweepStep_sub hcon with hin | hev | hev
      · exact h hin
      · injection hev with h2
        exact hw h2.symm
      · cases hev

/-- An element untouched by every sweep step keeps all its classes. -/
theorem sweepFold_untouched {env : Env} {ref : ToggleRec} {u : Nat} {c : String}
    (hskip : bindingOf env u = none ∨
      ∃ ru, bindingOf env u = some ru ∧
        (selMatches ref.skipSelector u = true ∨
          (ru.persist = true ∧ selMatches ref.siblingSelector u = false))) :
    ∀ (l : List Nat) (acc : St),
      (∀ w ∈ l, ∀ rw, bindingOf env w = some rw → w ≠ u →
        u ≠ rw.parentEl ∧ u ≠ rw.targetEl) →
      hasClass (l.foldl (sweepStep env ref) acc) u c = hasClass acc u c := by
  intro l
  induction l with
  | nil => intro acc _; rfl
  | cons w l ih =>
    intro acc hsafe
    by_cases hw : w = u
    · subst hw
      rw [List.foldl_cons, sweepStep_skip hskip acc]
      exact ih acc (fun w hwl => hsafe w (List.mem_cons_of_mem _ hwl))
    · rw [List.foldl_cons]
      have hstep : hasClass (sweepStep env ref acc w) u c = hasClass acc u c := by
        unfold sweepStep
        split
        next rw' hb =>
          split
          · have hsw := hsafe w (List.mem_cons_self w l) rw' hb (fun hc => hw hc)
            exact hasClass_unsetRec_of_notin (fun hc => hw hc.symm) hsw.1 hsw.2
          · rfl
        next => rfl
      rw [← hstep]
      exact ih (sweepStep env ref acc w) (fun w' hwl => hsafe w' (List.mem_cons_of_mem _ hwl))

end Toggle

namespace Toggle

/-- Wrapper: a guard-passing active bound trigger loses its active class
in the `unsetAll` sweep. -/
theorem unsetAllRec_unsets {env : Env} {s : St} {ref : ToggleRec} {u : Nat}
    {ru : ToggleRec} (hdoc : u ∈ env.dom.flatten)
    (hact : hasClass s u ref.activeClass = true)
    (hb : bindingOf env u = some ru)
    (hskip : selMatches ref.skipSelector u = false)
    (hper : ru.persist = false ∨ selMatches ref.siblingSelector u = true)
    (hhook : ru.beforeUnset = true) :
    hasClass (unsetAllRec env s ref) u ru.activeClass = false :=
  sweepFold_unsets hb hskip hper hhook (qsaClass env s ref.activeClass) s
    (List.mem_filter.mpr ⟨hdoc, hact⟩)

end Toggle

/-! ### Claim C6 -/

/-- C6: `unsetAll(refTrigger)` snapshots the elements carrying the
reference trigger's active class page-wide and, for each bound one, skips
it when it matches the reference's skipSelector, and unsets it when its
own persist is false or it matches the reference's siblingSelector: a
guard-passing active bound trigger ends without its class; a trigger
matching the skipSelector, or persistent and outside the sibling group,
never has unset invoked on it by the sweep, and — provided it is not the
parentEl or targetEl of another bound trigger — keeps all its classes. -/
theorem unsetAll_sweep_characterized (env : Env) (s : St) (t : Nat)
    (ref : ToggleRec) (hb : bindingOf env t = some ref) :
    (∀ u ru, u ∈ env.dom.flatten → hasClass s u ref.activeClass = true →
      bindingOf env u = some ru →
      selMatches ref.skipSelector u = false →
      (ru.persist = false ∨ selMatches ref.siblingSelector u = true) →
      ru.beforeUnset = true →
      hasClass (Toggle.unsetAll env s t) u ru.activeClass = false) ∧
    (∀ u ru, bindingOf env u = some ru → selMatches ref.skipSelector u = true →
      Ev.beforeUnsetCall u ∉ s.trace →
      Ev.beforeUnsetCall u ∉ (Toggle.unsetAll env s t).trace) ∧
    (∀ u ru, bindingOf env u = some ru → ru.persist = true →
      selMatches ref.siblingSelector u = false →
      (Ev.beforeUnsetCall u ∉ s.trace →
        Ev.beforeUnsetCall u ∉ (Toggle.unsetAll env s t).trace) ∧
      ((∀ w ∈ env.dom.flatten, ∀ rw, bindingOf env w = some rw → w ≠ u →
          u ≠ rw.parentEl ∧ u ≠ rw.targetEl) →
        ∀ c, hasClass (Toggle.unsetAll env s t) u c = hasClass s u c)) := by
  have hall : Toggle.unsetAll env s t = Toggle.unsetAllRec env s ref := by
    unfold Toggle.unsetAll
    rw [hb]
  refine ⟨?_, ?_, ?_⟩
  · intro u ru hdoc hact hbu hskip hper hhook
    rw [hall]
    exact Toggle.unsetAllRec_unsets hdoc hact hbu hskip hper hhook
  · intro u ru hbu hskip htr
    rw [hall]
    exact Toggle.sweepFold_no_unset_call (Or.inr ⟨ru, hbu, Or.inl hskip⟩) _ s htr
  · intro u ru hbu hper hsib
    refine ⟨?_, ?_⟩
    · intro htr
      rw [hall]
      exact Toggle.sweepFold_no_unset_call (Or.inr ⟨ru, hbu, Or.inr ⟨hper, hsib⟩⟩) _ s htr
    · intro hsafe c
      rw [hall]
      refine Toggle.sweepFold_untouched (Or.inr ⟨ru, hbu, Or.inr ⟨hper, hsib⟩⟩) _ s ?_
      intro w hwmem rw' hbw hwu
      exact hsafe w (List.mem_of_mem_filter hwmem) rw' hbw hwu

/-- C6 counterexample document: trigger 2 contains trigger 3 and region 5;
region 4 is elsewhere. -/
def c6dom : DomTree := .node 0 [.node 2 [.node 3 [], .node 5 []], .node 4 []]

/-- C6 counterexample: a persistent trigger in no sibling group. -/
def c6recP : ToggleRec := { parentEl := 0, targetEl := 4, persist := true }

/-- C6 counterexample: a non-persistent trigger whose parentEl is the
persistent trigger's own element. -/
def c6recQ : ToggleRec := { parentEl := 2, targetEl := 5 }

/-- C6 counterexample environment. -/
def c6env : Env := { dom := c6dom, recs := [(2, c6recP), (3, c6recQ)] }

/-- C6 counterexample intermediate state: activating trigger 3 also marks
its parentEl, which is the persistent trigger 2. -/
def c6mid : St := Toggle.set c6env {} 3 ""

/-- C6 is false as stated: trigger 2 has persist=true and belongs to no
siblingSelector group, and carries the active marker before the sweep, yet
`unsetAll` deactivates it — unsetting trigger 3 (whose parentEl is element
2) strips the marker from element 2 during the sweep. -/
theorem persist_immune_cex :
    bindingOf c6env 2 = some c6recP ∧
    c6recP.persist = true ∧
    c6recP.siblingSelector = none ∧
    hasClass c6mid 2 c6recP.activeClass = true ∧
    hasClass (Toggle.unsetAll c6env c6mid 3) 2 c6recP.activeClass = false := by
  constructor
  · decide
  · exact ⟨rfl, rfl, by decide, by decide⟩

/-- C6 witness environment: reference trigger 2 and sibling trigger 3,
with disjoint triples, grouped by a shared siblingSelector. -/
def c6wenv : Env :=
  { dom := .node 0 [.node 1 [.node 2 [], .node 4 []], .node 5 [.node 3 [], .node 6 []]]
    recs := [(2, { parentEl := 1, targetEl := 4, siblingSelector := some [2, 3] }),
             (3, { parentEl := 5, targetEl := 6, siblingSelector := some [2, 3],
                   persist := true })] }

/-- C6 witness state: sibling trigger 3 is active. -/
def c6wmid : St := Toggle.set c6wenv {} 3 ""

/-- C6 witness: the sweep characterization applied concretely — the active
persistent sibling 3 is deactivated by trigger 2's sweep because it
matches the reference siblingSelector. -/
theorem unsetAll_sweep_characterized_witness :
    hasClass c6wmid 3 "toggle--active" = true ∧
    hasClass (Toggle.unsetAll c6wenv c6wmid 2) 3 "toggle--active" = false :=
  ⟨by decide,
   (unsetAll_sweep_characterized c6wenv c6wmid 2
      { parentEl := 1, targetEl := 4, siblingSelector := some [2, 3] }
      (by decide)).1 3
      { parentEl := 5, targetEl := 6, siblingSelector := some [2, 3], persist := true }
      (by decide) (by decide) (by decide) (by decide) (Or.inr (by decide)) rfl⟩

/-! ### Claim C2 -/

/-- C2 (amended): when a trigger activates with beforeSet and
beforeUnsetAll permitting, the exclusivity sweep runs on the
pre-activation snapshot before the new marker is applied, and afterwards
no other member of the trigger's sibling group is Active: any element of
the group — in the document, bound, sharing the activeClass, not matching
the reference skipSelector, with beforeUnset permitting, and not serving
as the new trigger's parentEl or targetEl — ends without the active
marker, so at most one trigger of the group is Active after `set`
completes. -/
theorem sibling_exclusive_after_set (env : Env) (s : St) (t : Nat) (r : ToggleRec)
    (ty : String) (u : Nat) (ru : ToggleRec)
    (hb : bindingOf env t = some r)
    (hbs : r.beforeSet = true)
    (hbua : r.beforeUnsetAll = true)
    (hbu : bindingOf env u = some ru)
    (hut : u ≠ t)
    (hup : u ≠ r.parentEl)
    (hug : u ≠ r.targetEl)
    (hsib : selMatches r.siblingSelector u = true)
    (hdoc : u ∈ env.dom.flatten)
    (hclass : ru.activeClass = r.activeClass)
    (hskip : selMatches r.skipSelector u = false)
    (hhook : ru.beforeUnset = true) :
    hasClass (Toggle.set env s t ty) u ru.activeClass = false := by
  unfold Toggle.set Toggle.setRec
  simp only [hb, hbs, hbua, if_true]
  simp only [hasClass_logEv, hasClass_addDedupListener, hasClass_ite_addRawListener]
  rw [hasClass_add3_of_notin hut hup hug]
  by_cases hact : hasClass s u r.activeClass = true
  · exact Toggle.unsetAllRec_unsets hdoc hact hbu hskip (Or.inr hsib) hhook
  · rw [Bool.not_eq_true] at hact
    rw [hclass]
    exact Toggle.sweepFold_false hact

/-- C2 counterexample: two triggers in one sibling group. -/
def c2recA : ToggleRec := { parentEl := 1, targetEl := 4, siblingSelector := some [2, 3] }

/-- C2 counterexample: the second sibling vetoes the exclusivity sweep. -/
def c2recB : ToggleRec :=
  { parentEl := 1, targetEl := 5, siblingSelector := some [2, 3], beforeUnsetAll := false }

/-- C2 counterexample environment. -/
def c2env : Env :=
  { dom := .node 0 [.node 1 [.node 2 [], .node 3 [], .node 4 [], .node 5 []]]
    recs := [(2, c2recA), (3, c2recB)] }

/-- C2 counterexample run: activate sibling 2, then sibling 3. -/
def c2final : St := Toggle.set c2env (Toggle.set c2env {} 2 "") 3 ""

/-- C2 is false as stated: triggers 2 and 3 share a siblingSelector, yet
after `set` on trigger 3 completes (its beforeUnsetAll hook returns false,
so the exclusivity sweep is skipped) both group members carry the active
marker simultaneously. -/
theorem sibling_two_active_cex :
    bindingOf c2env 2 = some c2recA ∧
    bindingOf c2env 3 = some c2recB ∧
    selMatches c2recB.siblingSelector 2 = true ∧
    selMatches c2recB.siblingSelector 3 = true ∧
    hasClass c2final 2 c2recA.activeClass = true ∧
    hasClass c2final 3 c2recB.activeClass = true := by
  refine ⟨by decide, by decide, by decide, by decide, by decide, by decide⟩

/-- C2 witness environment: sibling triggers 2 and 3 with permitting hooks
and disjoint triples. -/
def c2wenv : Env :=
  { dom := .node 0 [.node 1 [.node 2 [], .node 4 []], .node 5 [.node 3 [], .node 6 []]]
    recs := [(2, { parentEl := 1, targetEl := 4, siblingSelector := some [2, 3] }),
             (3, { parentEl := 5, targetEl := 6, siblingSelector := some [2, 3] })] }

/-- C2 witness state: sibling 2 is active before sibling 3 activates. -/
def c2wmid : St := Toggle.set c2wenv {} 2 ""

/-- C2 witness: applying the exclusivity theorem concretely — after
`set` on sibling 3, sibling 2 no longer carries the marker. -/
theorem sibling_exclusive_after_set_witness :
    hasClass c2wmid 2 "toggle--active" = true ∧
    hasClass (Toggle.set c2wenv c2wmid 3 "click") 2 "toggle--active" = false :=
  ⟨by decide,
   sibling_exclusive_after_set c2wenv c2wmid 3
      { parentEl := 5, targetEl := 6, siblingSelector := some [2, 3] } "click" 2
      { parentEl := 1, targetEl := 4, siblingSelector := some [2, 3] }
      (by decide) rfl rfl (by decide) (by decide) (by decide) (by decide)
      (by decide) (by decide) rfl (by decide) rfl⟩

/-! ### Claim C10 -/

namespace Toggle

/-- The sweep is unchanged by dropping the unbound elements from the
scanned snapshot: steps on elements without a toggle record are skipped. -/
theorem sweepFold_filter_bound {env : Env} {ref : ToggleRec} :
    ∀ (l : List Nat) (acc : St),
      l.foldl (sweepStep env ref) acc =
        (l.filter (fun e => (bindingOf env e).isSome)).foldl (sweepStep env ref) acc := by
  intro l
  induction l with
  | nil => intro acc; rfl
  | cons w l ih =>
    intro acc
    cases hbw : bindingOf env w with
    | none =>
      rw [List.foldl_cons, sweepStep_skip (Or.inl hbw) acc]
      have hfil : (w :: l).filter (fun e => (bindingOf env e).isSome) =
          l.filter (fun e => (bindingOf env e).isSome) := by
        rw [List.filter_cons]
        simp [hbw]
      rw [hfil]
      exact ih acc
    | some rw' =>
      have hfil : (w :: l).filter (fun e => (bindingOf env e).isSome) =
          w :: l.filter (fun e => (bindingOf env e).isSome) := by
        rw [List.filter_cons]
        simp [hbw]
      rw [hfil, List.foldl_cons, List.foldl_cons]
      exact ih (sweepStep env ref acc w)

end Toggle

/-- C10: during `unsetAll`, an element carrying the active class but with
no toggle record attached is skipped without effect or error: the sweep
equals the sweep over the bound scanned elements only, and unset is never
invoked on an unbound element (no beforeUnset hook ever fires for it). -/
theorem unsetAll_skips_unbound (env : Env) (s : St) (t : Nat) (ref : ToggleRec)
    (hb : bindingOf env t = some ref) :
    Toggle.unsetAll env s t =
      ((qsaClass env s ref.activeClass).filter
        (fun e => (bindingOf env e).isSome)).foldl (Toggle.sweepStep env ref) s ∧
    (∀ x, bindingOf env x = none → Ev.beforeUnsetCall x ∉ s.trace →
      Ev.beforeUnsetCall x ∉ (Toggle.unsetAll env s t).trace) := by
  have hall : Toggle.unsetAll env s t = Toggle.unsetAllRec env s ref := by
    unfold Toggle.unsetAll
    rw [hb]
  constructor
  · rw [hall]
    exact Toggle.sweepFold_filter_bound (qsaClass env s ref.activeClass) s
  · intro x hbx htr
    rw [hall]
    exact Toggle.sweepFold_no_unset_call (Or.inl hbx) _ s htr

/-- C10 witness environment: one bound trigger; element 7 is a stray
carrying the active class with no toggle record. -/
def c10wenv : Env :=
  { dom := .node 0 [.node 1 [.node 2 [], .node 4 []], .node 7 []]
    recs := [(2, { parentEl := 1, targetEl := 4 })] }

/-- C10 witness state: the stray element 7 is styled with the active
class. -/
def c10ws : St := { classes := [(7, "toggle--active")] }

/-- C10 witness: the sweep characterization applied concretely — the
stray active-styled element 7 never has unset invoked on it, and keeps
its class. -/
theorem unsetAll_skips_unbound_witness :
    Ev.beforeUnsetCall 7 ∉ (Toggle.unsetAll c10wenv c10ws 2).trace ∧
    hasClass (Toggle.unsetAll c10wenv c10ws 2) 7 "toggle--active" = true :=
  ⟨(unsetAll_skips_unbound c10wenv c10ws 2 { parentEl := 1, targetEl := 4 }
      (by decide)).2 7 (by decide) (by decide),
   by decide⟩

/-! ### Claim C7 -/

/-- C7 environment: one wired trigger with the default persist=false and a
5000 ms timeout. -/
def c7env : Env :=
  { dom := .node 0 [.node 1 [.node 2 [], .node 4 []]]
    recs := [(2, { parentEl := 1, targetEl := 4, timeout := 5000 })] }

/-- C7 run: activate the trigger. -/
def c7set : St := Toggle.set c7env {} 2 ""

/-- C7 run: immediately unset it again. -/
def c7final : St := Toggle.unset c7env c7set 2

/-- C7 evaluation at the failing input: `set` registers the
outside-interaction listener, the timeout timer and the inner-click
listener; the immediately following `unset` removes only the inner-click
listener — the outside-interaction listener and the pending timer dangle
for the now-Inactive trigger, and re-activating accumulates a duplicate
outside-interaction registration, contradicting the claim (and the unset
doc comment "removes events from the body" in the source). -/
theorem unset_leaves_dangling_listeners :
    c7set.listeners.contains (Handle.bodyBlur 2 "click") = true ∧
    c7set.listeners.contains (Handle.unsetTimer 2 5000) = true ∧
    hasClass c7final 2 "toggle--active" = false ∧
    c7final.listeners.contains (Handle.bodyBlur 2 "click") = true ∧
    c7final.listeners.contains (Handle.unsetTimer 2 5000) = true ∧
    c7final.listeners.contains (Handle.innerClick 4) = false ∧
    (Toggle.set c7env c7final 2 "").listeners.count (Handle.bodyBlur 2 "click") = 2 := by
  refine ⟨by decide, by decide, by decide, by decide, by decide, by decide, by decide⟩

/-! ### Claim C8 -/

/-- Equality of setup states up to the warning log: same wired records,
back-references, handlers and runtime document state. -/
def SetupEqNoWarns (a b : SetupSt) : Prop :=
  a.recs = b.recs ∧ a.backRefs = b.backRefs ∧ a.handlers = b.handlers ∧
    a.runtime = b.runtime

theorem setupTrigger_congr (ctx : SetupCtx) (t : Nat) (o : TrigOpts)
    {a b : SetupSt} (h : SetupEqNoWarns a b) :
    SetupEqNoWarns (setupTrigger ctx a t o) (setupTrigger ctx b t o) := by
  obtain ⟨h1, h2, h3, h4⟩ := h
  cases hgt : getTarget ctx.dom (getParent ctx.dom t o.parent) o.target with
  | none =>
    simp only [setupTrigger, hgt]
    exact ⟨h1, h2, h3, h4⟩
  | some g =>
    simp only [setupTrigger, hgt]
    exact ⟨by rw [h1], by rw [h2], by rw [h3], by rw [h1, h2, h4]⟩

theorem setupAll_congr (ctx : SetupCtx) :
    ∀ (l : List (Nat × TrigOpts)) {a b : SetupSt}, SetupEqNoWarns a b →
      SetupEqNoWarns (setupAll ctx a l) (setupAll ctx b l)
  | [], _, _, h => h
  | p :: l, _, _, h =>
    setupAll_congr ctx l (setupTrigger_congr ctx p.1 p.2 h)

/-- C9: `_getTarget` queries the whole document for the target selector;
with exactly one global match it uses that element directly, and with more
than one it takes the first match among the descendants of parentEl. When
no target resolves, setup for that trigger logs a warning and stops with
no further wiring — no record, back-reference, handlers, or
auto-activation — and the remaining triggers wire exactly as they would
without it. -/
theorem target_resolution_and_abort (ctx : SetupCtx) (st : SetupSt) (t : Nat)
    (o : TrigOpts) :
    (∀ u, ctx.dom.flatten.filter (fun e => o.target.contains e) = [u] →
      getTarget ctx.dom (getParent ctx.dom t o.parent) o.target = some u) ∧
    ((ctx.dom.flatten.filter (fun e => o.target.contains e)).length > 1 →
      getTarget ctx.dom (getParent ctx.dom t o.parent) o.target =
        (descendantsOf ctx.dom (getParent ctx.dom t o.parent)).find?
          (fun e => o.target.contains e)) ∧
    (getTarget ctx.dom (getParent ctx.dom t o.parent) o.target = none →
      setupTrigger ctx st t o = { st with warns := st.warns ++ [t] } ∧
      ∀ l, SetupEqNoWarns (setupAll ctx st ((t, o) :: l)) (setupAll ctx st l)) := by
  refine ⟨?_, ?_, ?_⟩
  · intro u hfilter
    unfold getTarget
    simp only [hfilter]
    simp
  · intro hlen
    unfold getTarget
    simp only [hlen, if_pos]
  · intro hnone
    have habort : setupTrigger ctx st t o = { st with warns := st.warns ++ [t] } := by
      simp only [setupTrigger, hnone]
    refine ⟨habort, ?_⟩
    intro l
    show SetupEqNoWarns (setupAll ctx (setupTrigger ctx st t o) l) (setupAll ctx st l)
    rw [habort]
    exact setupAll_congr ctx l ⟨rfl, rfl, rfl, rfl⟩

/-- C9 witness context: a document where target selector extension `[9]`
matches nothing and `[4]` matches exactly element 4. -/
def c9ctx : SetupCtx := { dom := .node 0 [.node 1 [.node 2 [], .node 4 []], .node 3 []] }

/-- C9 witness: trigger options whose target resolves to nothing. -/
def c9failOpts : TrigOpts := { target := [9] }

/-- C9 witness: trigger options whose target resolves to element 4. -/
def c9okOpts : TrigOpts := { target := [4] }

/-- C9 witness: the abort theorem applied concretely — the failing trigger
only logs a warning, and the other trigger's wiring is unaffected by its
presence. -/
theorem target_resolution_and_abort_witness :
    setupTrigger c9ctx {} 2 c9failOpts = { warns := [2] } ∧
    SetupEqNoWarns (setupAll c9ctx {} [(2, c9failOpts), (3, c9okOpts)])
      (setupAll c9ctx {} [(3, c9okOpts)]) := by
  have h := (target_resolution_and_abort c9ctx {} 2 c9failOpts).2.2 (by decide)
  exact ⟨h.1, h.2 [(3, c9okOpts)]⟩
